import Mathlib

/-! Verification development for score.session (the `score/session` package).

The embedding below models, faithfully to the Python sources:

* `_init.py`:`Session` — the abstract dict-style session contract
  (`__contains__`, `__getitem__`, `__setitem__`, `__delitem__`, `__iter__`,
  `store`, `revert`, `was_changed`, `_mark_dirty`, `__init__`);
* `_kvcache.py`:`KvcacheSession` — the cache-backed session
  (`_create_dict`, `_id_is_valid`, `_store`, `_revert`, live-data mode);
* `_init.py`:`DataManager` — the two-phase-commit participant
  (`commit`, `abort`, `tpc_abort`);
* `orm.py`:`OrmSession` and `db.py`:`DbSession` — the relational sessions
  with `hasattr`-based column/payload dispatch;
* the `deepcopy` call in `Session.__getitem__`, modelled over an explicit
  heap of cells so that aliasing statements (copy isolation) are provable.

Backend interactions are instrumented with counters (`fetchCount`,
`storeCount`, `validCheckCount`) so that "no backend call happens" claims
are statable.  Python `None`/`False`/`KeyError` are modelled with `Option`.
-/

namespace Score

/-- JSON-serializable session values (the values stored in a session's
data mapping).  Equality of `Val` models Python deep equality `==`. -/
inductive Val where
  | vnull : Val
  | vbool : Bool → Val
  | vint : Int → Val
  | vstr : String → Val
  | vlist : List Val → Val
  | vdict : List (String × Val) → Val

mutual

/-- Decidable deep structural equality on `Val`, modelling Python `==` on
JSON-serializable values. -/
def Val.decEq : (a b : Val) → Decidable (a = b)
  | .vnull, .vnull => isTrue rfl
  | .vbool a, .vbool b =>
    if h : a = b then isTrue (h ▸ rfl)
    else isFalse (fun hh => h (Val.vbool.inj hh))
  | .vint a, .vint b =>
    if h : a = b then isTrue (h ▸ rfl)
    else isFalse (fun hh => h (Val.vint.inj hh))
  | .vstr a, .vstr b =>
    if h : a = b then isTrue (h ▸ rfl)
    else isFalse (fun hh => h (Val.vstr.inj hh))
  | .vlist a, .vlist b =>
    match Val.decEqList a b with
    | isTrue h => isTrue (h ▸ rfl)
    | isFalse h => isFalse (fun hh => h (Val.vlist.inj hh))
  | .vdict a, .vdict b =>
    match Val.decEqDict a b with
    | isTrue h => isTrue (h ▸ rfl)
    | isFalse h => isFalse (fun hh => h (Val.vdict.inj hh))
  | .vnull, .vbool _ | .vnull, .vint _ | .vnull, .vstr _
  | .vnull, .vlist _ | .vnull, .vdict _ => isFalse (fun h => Val.noConfusion h)
  | .vbool _, .vnull | .vbool _, .vint _ | .vbool _, .vstr _
  | .vbool _, .vlist _ | .vbool _, .vdict _ =>
    isFalse (fun h => Val.noConfusion h)
  | .vint _, .vnull | .vint _, .vbool _ | .vint _, .vstr _
  | .vint _, .vlist _ | .vint _, .vdict _ =>
    isFalse (fun h => Val.noConfusion h)
  | .vstr _, .vnull | .vstr _, .vbool _ | .vstr _, .vint _
  | .vstr _, .vlist _ | .vstr _, .vdict _ =>
    isFalse (fun h => Val.noConfusion h)
  | .vlist _, .vnull | .vlist _, .vbool _ | .vlist _, .vint _
  | .vlist _, .vstr _ | .vlist _, .vdict _ =>
    isFalse (fun h => Val.noConfusion h)
  | .vdict _, .vnull | .vdict _, .vbool _ | .vdict _, .vint _
  | .vdict _, .vstr _ | .vdict _, .vlist _ =>
    isFalse (fun h => Val.noConfusion h)

/-- Decidable equality on value lists. -/
def Val.decEqList : (a b : List Val) → Decidable (a = b)
  | [], [] => isTrue rfl
  | [], _ :: _ => isFalse (fun h => List.noConfusion h)
  | _ :: _, [] => isFalse (fun h => List.noConfusion h)
  | a :: as, b :: bs =>
    match Val.decEq a b, Val.decEqList as bs with
    | isTrue h1, isTrue h2 => isTrue (by rw [h1, h2])
    | isFalse h1, _ => isFalse (fun hh => h1 (List.cons.inj hh).1)
    | _, isFalse h2 => isFalse (fun hh => h2 (List.cons.inj hh).2)

/-- Decidable equality on dict entry lists. -/
def Val.decEqDict : (a b : List (String × Val)) → Decidable (a = b)
  | [], [] => isTrue rfl
  | [], _ :: _ => isFalse (fun h => List.noConfusion h)
  | _ :: _, [] => isFalse (fun h => List.noConfusion h)
  | (k, a) :: as, (l, b) :: bs =>
    if hk : k = l then
      match Val.decEq a b, Val.decEqDict as bs with
      | isTrue h1, isTrue h2 => isTrue (by rw [hk, h1, h2])
      | isFalse h1, _ =>
        isFalse (fun hh => h1 (congrArg Prod.snd (List.cons.inj hh).1))
      | _, isFalse h2 => isFalse (fun hh => h2 (List.cons.inj hh).2)
    else
      isFalse (fun hh => hk (congrArg Prod.fst (List.cons.inj hh).1))

end

instance : DecidableEq Val := Val.decEq

/-- Association-list lookup (Python `d[k]` / `k in d` on a dict, with
insertion order preserved, as CPython dicts do). -/
def lookupA {α : Type} : List (String × α) → String → Option α
  | [], _ => none
  | (k', v') :: t, k => if k' = k then some v' else lookupA t k

/-- Association-list insert/replace (`d[k] = v`): replaces in place when the
key is present, appends otherwise — matching CPython dict update order. -/
def insertA {α : Type} : List (String × α) → String → α → List (String × α)
  | [], k, v => [(k, v)]
  | (k', v') :: t, k, v =>
    if k' = k then (k, v) :: t else (k', v') :: insertA t k v

/-- Association-list erase (`del d[k]`). -/
def eraseA {α : Type} : List (String × α) → String → List (String × α)
  | [], _ => []
  | (k', v') :: t, k => if k' = k then t else (k', v') :: eraseA t k

/-- The keys of a dict, in insertion order (`list(d)` / `d.keys()`). -/
def keysA {α : Type} (d : List (String × α)) : List String := d.map Prod.fst

/-- A session's data mapping: string keys to JSON values. -/
abbrev Dict : Type := List (String × Val)

/-- Models `str(uuid.uuid4())` at `_init.py:432` as a deterministic
injective supply of fresh non-empty identity strings, indexed by how many
identities were generated so far. -/
def uuidStr (n : Nat) : String := String.mk ('u' :: List.replicate n 'u')

/-- State of a `KvcacheSession` (`_kvcache.py`) together with its backend
container and instrumentation counters for backend interactions. -/
structure KvSession where
  /-- the kvcache container: identity string to stored data mapping -/
  container : List (String × Dict)
  /-- number of container reads (`self._container[...]`, `in self._container`
  inside `_create_dict` counts via `fetchCount`, identity-validity probes
  via `validCheckCount`) -/
  fetchCount : Nat
  /-- number of container writes (`self._container[self.id] = ...`) -/
  storeCount : Nat
  /-- number of `_id_is_valid` probes (`id in self._container`) -/
  validCheckCount : Nat
  /-- The `self.id` -/
  id : Option String
  /-- The `self._original_id` -/
  originalId : Option String
  /-- The `self._was_changed` -/
  wasChanged : Bool
  /-- The `self._is_dirty` -/
  isDirty : Bool
  /-- The `self._cached_dict` (None until `_create_dict` ran) -/
  cachedDict : Option Dict
  /-- the configured `kvcache.livedata` flag -/
  livedata : Bool
  /-- supply index for the next generated uuid -/
  uuidCtr : Nat
deriving DecidableEq

/-- The `KvcacheSession._id_is_valid` (`_kvcache.py:48`): `id in self._container`. -/
def idIsValid (container : List (String × Dict)) (i : String) : Bool :=
  (lookupA container i).isSome

/-- The `Session.__init__` (`_init.py:343`) composed with
`DictSession.__init__`: `if not id or not self._id_is_valid(id): id = None`.
Python truthiness: `not id` is true for `None` and for the empty string, in
which case the validity probe is short-circuited away. -/
def mkKvSession (container : List (String × Dict)) (livedata : Bool)
    (cand : Option String) : KvSession :=
  let falsy : Bool := match cand with
    | none => true
    | some c => c = ""
  if falsy then
    { container := container, fetchCount := 0, storeCount := 0,
      validCheckCount := 0, id := none, originalId := none,
      wasChanged := false, isDirty := false, cachedDict := none,
      livedata := livedata, uuidCtr := 0 }
  else
    match cand with
    | none =>
      { container := container, fetchCount := 0, storeCount := 0,
        validCheckCount := 0, id := none, originalId := none,
        wasChanged := false, isDirty := false, cachedDict := none,
        livedata := livedata, uuidCtr := 0 }
    | some c =>
      let ok := idIsValid container c
      let newId : Option String := if ok then some c else none
      { container := container, fetchCount := 0, storeCount := 0,
        validCheckCount := 1, id := newId, originalId := newId,
        wasChanged := false, isDirty := false, cachedDict := none,
        livedata := livedata, uuidCtr := 0 }

/-- The `KvcacheSession._create_dict` (`_kvcache.py:42`): fetches
`self._container[self.id]` from the backend, returning the empty mapping on
a miss.  Always counts as one backend fetch (the lookup is issued even when
`self.id` is `None`). -/
def createDict (s : KvSession) : Dict × KvSession :=
  let d : Dict := match s.id with
    | none => []
    | some i => (lookupA s.container i).getD []
  (d, { s with fetchCount := s.fetchCount + 1 })

/-- The `DictSession._dict` property (`_init.py:459`): materializes
`_cached_dict` through `_create_dict` on first access. -/
def getDict (s : KvSession) : Dict × KvSession :=
  match s.cachedDict with
  | some d => (d, s)
  | none =>
    let (d, s') := createDict s
    (d, { s' with cachedDict := some d })

/-- The `Session.__contains__` (`_init.py:418`): `False` when `self.id is None`,
otherwise `DictSession._contains`, i.e. `key in self._dict`. -/
def containsOp (s : KvSession) (k : String) : Bool × KvSession :=
  match s.id with
  | none => (false, s)
  | some _ =>
    let (d, s') := getDict s
    ((lookupA d k).isSome, s')

/-- The `Session.__getitem__` (`_init.py:423`): `KeyError` (modelled `none`) when
`self.id is None`, otherwise `deepcopy(self._get(key))`; on the pure value
model the deep copy is the value itself. -/
def getOp (s : KvSession) (k : String) : Option Val × KvSession :=
  match s.id with
  | none => (none, s)
  | some _ =>
    let (d, s') := getDict s
    (lookupA d k, s')

/-- The `KvcacheSession._store` (`_kvcache.py:51`):
`self._container[self.id] = self._cached_dict`.  Only reachable with a
generated identity and a materialized dict (every dirtying mutation first
runs `_set`/`_del` on `self._dict`). -/
def storeBackend (s : KvSession) : KvSession :=
  match s.id with
  | none => s
  | some i =>
    { s with container := insertA s.container i (s.cachedDict.getD []),
             storeCount := s.storeCount + 1 }

/-- The `KvcacheSession._mark_dirty` (`_kvcache.py:36`): the base class sets
`_was_changed` and `_is_dirty`; in live-data mode the mutation is written
through immediately and `_is_dirty` is cleared again. -/
def markDirty (s : KvSession) : KvSession :=
  let s₁ := { s with wasChanged := true, isDirty := true }
  if s₁.livedata then
    let s₂ := storeBackend s₁
    { s₂ with isDirty := false }
  else s₁

/-- The `Session.__setitem__` (`_init.py:428`): skip when
`self.get(key, self) == value` (the sentinel default — the session object
itself — never equals a JSON value, so the skip happens exactly when the key
is present with an equal value); otherwise generate an identity if absent,
run `_set` (`self._dict[key] = value`) and `_mark_dirty`. -/
def setOp (s : KvSession) (k : String) (v : Val) : KvSession :=
  let (ov, s₁) := getOp s k
  if ov = some v then s₁
  else
    let s₂ := match s₁.id with
      | none => { s₁ with id := some (uuidStr s₁.uuidCtr),
                          uuidCtr := s₁.uuidCtr + 1 }
      | some _ => s₁
    let (d, s₃) := getDict s₂
    markDirty { s₃ with cachedDict := some (insertA d k v) }

/-- The `Session.store` (`_init.py:355`): `if self._is_dirty: self._store()`.
Note that, unlike `revert`, this does not clear `_is_dirty`. -/
def storeOp (s : KvSession) : KvSession :=
  if s.isDirty then storeBackend s else s

/-- The `Session.revert` (`_init.py:362`) with `KvcacheSession._revert`
(`_kvcache.py:54`): when dirty, drop the cached mapping and clear
`_is_dirty`. -/
def revertOp (s : KvSession) : KvSession :=
  if s.isDirty then { s with cachedDict := none, isDirty := false } else s

/-- The `DictSession.__iter__` (`_init.py:465`): `iter(self._dict)` — note there
is no `id is None` guard here, the `_dict` property is always consulted. -/
def iterOp (s : KvSession) : List String × KvSession :=
  let (d, s') := getDict s
  (keysA d, s')

/-- The `Session.was_changed` (`_init.py:370`). -/
def wasChangedOp (s : KvSession) : Bool := s.wasChanged

/-- The session's visible data mapping (what the dict protocol exposes):
the materialized `_dict`. -/
def viewOf (s : KvSession) : Dict := (getDict s).1

/-- State of the `DataManager` two-phase-commit participant
(`_init.py:211`) joined to a kvcache-backed session. -/
structure DM where
  /-- The `self.session` -/
  sess : KvSession
  /-- The `self.revert_data` (class attribute `None` until `commit` ran) -/
  revertData : Option Dict
deriving DecidableEq

/-- The `DataManager.abort` (`_init.py:233`): `self.session.revert()`. -/
def dmAbort (dm : DM) : DM :=
  { dm with sess := revertOp dm.sess }

/-- The backing row object of an `OrmSession` (`orm.py`).  `attrs` lists
every Python attribute of the object except `data` itself — the `id`
column, declared first-class columns, and class-level attributes such as
`metadata` or bound methods (modelled as attribute names carrying some
value).  `data` is the JSON payload column. -/
structure OrmObj where
  attrs : List (String × Val)
  data : Dict
deriving DecidableEq

/-- Models `hasattr(self._orm_object, key)`: true for the `data` attribute itself
and for every name in `attrs`. -/
def hasattrO (o : OrmObj) (k : String) : Bool :=
  k = "data" || (lookupA o.attrs k).isSome

/-- Models `getattr(self._orm_object, key)`: the `data` payload reads as a dict
value; other attributes read from `attrs`. -/
def getattrO (o : OrmObj) (k : String) : Val :=
  if k = "data" then Val.vdict o.data else (lookupA o.attrs k).getD Val.vnull

/-- Models `setattr(self._orm_object, key, value)`.  Modelled for non-`data`
attributes (assigning a non-dict to `data` itself would corrupt the row;
the claims never do). -/
def setattrO (o : OrmObj) (k : String) (v : Val) : OrmObj :=
  if k = "data" then
    { o with data := match v with | Val.vdict d => d | _ => [] }
  else
    { o with attrs := insertA o.attrs k v }

/-- State of an `OrmSession` (`orm.py:82`) with its database of rows keyed
by the `id` column.  `classAttrs` are the attribute names a fresh
`self._orm_class(data=dict())` instance carries (columns and class-level
machinery); `cols` are `self._orm_class.__table__.columns` names. -/
structure OrmSession where
  db : List (String × OrmObj)
  classAttrs : List String
  cols : List String
  id : Option String
  originalId : Option String
  wasChanged : Bool
  isDirty : Bool
  cachedObj : Option OrmObj
deriving DecidableEq

/-- Models `self._orm_class(data=dict())` (`orm.py:100`): a fresh instance with an
empty payload whose other attributes are unset (`None`). -/
def freshOrmObj (classAttrs : List String) : OrmObj :=
  { attrs := (classAttrs.filter (fun a => a ≠ "data")).map
      (fun a => (a, Val.vnull)),
    data := [] }

/-- The `OrmSession._orm_object` lazy property (`orm.py:92`): returns the
cached object, else queries the row by `_original_id` (`first()` may find
none), else builds a fresh instance; the result is cached when found. -/
def ormObjectOf (s : OrmSession) : Option OrmObj × OrmSession :=
  match s.cachedObj with
  | some o => (some o, s)
  | none =>
    match s.originalId with
    | some oid =>
      match lookupA s.db oid with
      | some o => (some o, { s with cachedObj := some o })
      | none => (none, s)
    | none =>
      let o := freshOrmObj s.classAttrs
      (some o, { s with cachedObj := some o })

/-- The `Session.__contains__` over `OrmSession._contains` (`orm.py:130`):
`hasattr(self._orm_object, key) or key in self._orm_object.data`.  `none`
models the row being unavailable. -/
def ormContainsOp (s : OrmSession) (k : String) : Option Bool × OrmSession :=
  match s.id with
  | none => (some false, s)
  | some _ =>
    match ormObjectOf s with
    | (some o, s₁) => (some (hasattrO o k || (lookupA o.data k).isSome), s₁)
    | (none, s₁) => (none, s₁)

/-- The `Session.__getitem__` over `OrmSession._get` (`orm.py:134`): attribute
value when `hasattr` holds, else payload lookup; `none` models `KeyError`
(or an unavailable row). -/
def ormGetOp (s : OrmSession) (k : String) : Option Val × OrmSession :=
  match s.id with
  | none => (none, s)
  | some _ =>
    match ormObjectOf s with
    | (some o, s₁) =>
      (if hasattrO o k then some (getattrO o k) else lookupA o.data k, s₁)
    | (none, s₁) => (none, s₁)

/-- The base `Session._mark_dirty` (`_init.py:377`), not overridden by
`OrmSession`. -/
def markDirtyBase (s : OrmSession) : OrmSession :=
  { s with wasChanged := true, isDirty := true }

/-- The `Session.__delitem__` over `OrmSession._del` (`orm.py:124`): no-op when
`key not in self`; when the key names an attribute, `setattr(obj, key,
None)` — the column is nulled, not removed; otherwise the payload entry is
deleted. -/
def ormDelOp (s : OrmSession) (k : String) : OrmSession :=
  let (b, s₁) := ormContainsOp s k
  if b = some true then
    match ormObjectOf s₁ with
    | (some o, s₂) =>
      let o' := if hasattrO o k then setattrO o k Val.vnull
                else { o with data := eraseA o.data k }
      markDirtyBase { s₂ with cachedObj := some o' }
    | (none, s₂) => s₂
  else s₁

/-- The `Session.__iter__` over `OrmSession._iter` (`orm.py:139`): the table's
column names except `id` and `data`, then the payload's keys. -/
def ormIterOp (s : OrmSession) : Option (List String) × OrmSession :=
  match ormObjectOf s with
  | (some o, s₁) =>
    (some ((s.cols.filter (fun c => c ≠ "id" && c ≠ "data")) ++ keysA o.data),
     s₁)
  | (none, s₁) => (none, s₁)

/-- The backing row object of a `DbSession` (`db.py`), mirroring `OrmObj`:
`attrs` lists every attribute except `_data`; `dataCol` is the `_data` JSON
payload column. -/
structure DbObj where
  attrs : List (String × Val)
  dataCol : Dict
deriving DecidableEq

/-- Models `hasattr(self._db_object, key)`. -/
def hasattrD (o : DbObj) (k : String) : Bool :=
  k = "_data" || (lookupA o.attrs k).isSome

/-- Models `getattr(self._db_object, key)`. -/
def getattrD (o : DbObj) (k : String) : Val :=
  if k = "_data" then Val.vdict o.dataCol
  else (lookupA o.attrs k).getD Val.vnull

/-- State of a `DbSession` (`db.py:58`) with its database of rows keyed by
the `_uuid` column. -/
structure DbSession where
  db : List (String × DbObj)
  classAttrs : List String
  id : Option String
  originalId : Option String
  wasChanged : Bool
  isDirty : Bool
  cachedObj : Option DbObj
deriving DecidableEq

/-- The `DbSession._db_object` lazy property (`db.py:68`). -/
def dbObjectOf (s : DbSession) : Option DbObj × DbSession :=
  match s.cachedObj with
  | some o => (some o, s)
  | none =>
    match s.originalId with
    | some oid =>
      match lookupA s.db oid with
      | some o => (some o, { s with cachedObj := some o })
      | none => (none, s)
    | none =>
      let o : DbObj :=
        { attrs := (s.classAttrs.filter (fun a => a ≠ "_data")).map
            (fun a => (a, Val.vnull)),
          dataCol := [] }
      (some o, { s with cachedObj := some o })

/-- The `Session.__contains__` over `DbSession._contains` (`db.py:106`):
`hasattr(self._db_object, key) or key in self._db_object._data`. -/
def dbContainsOp (s : DbSession) (k : String) : Option Bool × DbSession :=
  match s.id with
  | none => (some false, s)
  | some _ =>
    match dbObjectOf s with
    | (some o, s₁) => (some (hasattrD o k || (lookupA o.dataCol k).isSome), s₁)
    | (none, s₁) => (none, s₁)

/-- The `Session.__getitem__` over `DbSession._get` (`db.py:109`). -/
def dbGetOp (s : DbSession) (k : String) : Option Val × DbSession :=
  match s.id with
  | none => (none, s)
  | some _ =>
    match dbObjectOf s with
    | (some o, s₁) =>
      (if hasattrD o k then some (getattrD o k) else lookupA o.dataCol k, s₁)
    | (none, s₁) => (none, s₁)

/-! Section: Heap model of `deepcopy` (for copy-isolation statements)

`Session.__getitem__` (`_init.py:426`) returns `deepcopy(self._get(key))`.
To state that mutating the returned object never changes what a later read
observes, values are laid out on an explicit heap of cells addressed by
`Nat`; in-place mutation is overwriting a cell. -/

/-- One heap cell: a scalar, or a composite holding the addresses of its
children. -/
inductive HCell where
  | cnull : HCell
  | cbool : Bool → HCell
  | cint : Int → HCell
  | cstr : String → HCell
  | clist : List Nat → HCell
  | cdict : List (String × Nat) → HCell
deriving DecidableEq

/-- A heap: cells addressed by their list index. -/
abbrev Heap : Type := List HCell

/-- Reading the value rooted at address `a` (fuel-bounded; any JSON value of
size at most `fuel` reads fully). -/
def readH : Nat → Heap → Nat → Option Val
  | 0, _, _ => none
  | fuel + 1, h, a =>
    match h[a]? with
    | none => none
    | some HCell.cnull => some Val.vnull
    | some (HCell.cbool b) => some (Val.vbool b)
    | some (HCell.cint n) => some (Val.vint n)
    | some (HCell.cstr s) => some (Val.vstr s)
    | some (HCell.clist es) => (es.mapM (readH fuel h)).map Val.vlist
    | some (HCell.cdict es) =>
      (es.mapM (fun kv => (readH fuel h kv.2).map (fun v => (kv.1, v)))).map
        Val.vdict

mutual

/-- Allocating a fresh copy of a pure value on the heap: appends cells only,
returns the new root address.  `deepcopy` of an (acyclic, JSON-like) object
is reading its value and allocating it afresh. -/
def allocVal : Heap → Val → Heap × Nat
  | h, Val.vnull => (h ++ [HCell.cnull], h.length)
  | h, Val.vbool b => (h ++ [HCell.cbool b], h.length)
  | h, Val.vint n => (h ++ [HCell.cint n], h.length)
  | h, Val.vstr s => (h ++ [HCell.cstr s], h.length)
  | h, Val.vlist es =>
    let p := allocList h es
    (p.1 ++ [HCell.clist p.2], p.1.length)
  | h, Val.vdict es =>
    let p := allocDict h es
    (p.1 ++ [HCell.cdict p.2], p.1.length)

/-- Allocate each element of a list, left to right. -/
def allocList : Heap → List Val → Heap × List Nat
  | h, [] => (h, [])
  | h, v :: vs =>
    let p := allocVal h v
    let q := allocList p.1 vs
    (q.1, p.2 :: q.2)

/-- Allocate each entry value of a dict, left to right. -/
def allocDict : Heap → List (String × Val) → Heap × List (String × Nat)
  | h, [] => (h, [])
  | h, kv :: vs =>
    let p := allocVal h kv.2
    let q := allocDict p.1 vs
    (q.1, (kv.1, p.2) :: q.2)

end

theorem lookupA_insertA_self {α : Type} (d : List (String × α)) (k : String)
    (v : α) : lookupA (insertA d k v) k = some v := by
  induction d with
  | nil => simp [insertA, lookupA]
  | cons kv t ih =>
    obtain ⟨k', v'⟩ := kv
    by_cases h : k' = k
    · simp [insertA, h, lookupA]
    · simp [insertA, h, lookupA, ih]

theorem lookupA_eq_none {α : Type} (d : List (String × α)) (k : String)
    (h : k ∉ keysA d) : lookupA d k = none := by
  induction d with
  | nil => simp [lookupA]
  | cons kv t ih =>
    obtain ⟨k', v'⟩ := kv
    simp only [keysA, List.map_cons, List.mem_cons] at h
    push_neg at h
    simp only [lookupA]
    rw [if_neg (fun hh => h.1 hh.symm)]
    exact ih h.2

theorem lookupA_eraseA_self {α : Type} (d : List (String × α)) (k : String)
    (hnd : (keysA d).Nodup) : lookupA (eraseA d k) k = none := by
  induction d with
  | nil => simp [eraseA, lookupA]
  | cons kv t ih =>
    obtain ⟨k', v'⟩ := kv
    simp only [keysA, List.map_cons, List.nodup_cons] at hnd
    by_cases h : k' = k
    · subst h
      simp only [eraseA, if_pos rfl]
      exact lookupA_eq_none t k' hnd.1
    · simp only [eraseA, if_neg h, lookupA]
      exact ih hnd.2

/-- A heap transformation preserves the cells a heap defines. -/
abbrev HeapLe (h h' : Heap) : Prop :=
  ∀ (i : Nat) (c : HCell), h[i]? = some c → h'[i]? = some c

theorem heapLe_append (h ext : Heap) : HeapLe h (h ++ ext) := by
  intro i c hc
  have hi : i < h.length := (List.getElem?_eq_some.mp hc).choose
  rw [List.getElem?_append_left hi]
  exact hc

theorem heapLe_trans {h₁ h₂ h₃ : Heap} (a : HeapLe h₁ h₂) (b : HeapLe h₂ h₃) :
    HeapLe h₁ h₃ := fun i c hc => b i c (a i c hc)

mutual

/-- Lemma: `allocVal` only appends cells; its root is a fresh address. -/
theorem allocVal_spec : (h : Heap) → (v : Val) →
    (∃ ext : Heap, (allocVal h v).1 = h ++ ext) ∧
    h.length ≤ (allocVal h v).2 ∧ (allocVal h v).2 < (allocVal h v).1.length
  | h, Val.vnull =>
    ⟨⟨[HCell.cnull], rfl⟩, Nat.le_refl _, by simp [allocVal]⟩
  | h, Val.vbool b =>
    ⟨⟨[HCell.cbool b], rfl⟩, Nat.le_refl _, by simp [allocVal]⟩
  | h, Val.vint n =>
    ⟨⟨[HCell.cint n], rfl⟩, Nat.le_refl _, by simp [allocVal]⟩
  | h, Val.vstr s =>
    ⟨⟨[HCell.cstr s], rfl⟩, Nat.le_refl _, by simp [allocVal]⟩
  | h, Val.vlist es => by
    obtain ⟨ext, hext⟩ := allocList_spec h es
    refine ⟨⟨ext ++ [HCell.clist (allocList h es).2], ?_⟩, ?_, ?_⟩
    · show (allocList h es).1 ++ [HCell.clist (allocList h es).2] = _
      rw [hext, List.append_assoc]
    · show h.length ≤ (allocList h es).1.length
      rw [hext]
      simp
    · show (allocList h es).1.length <
        ((allocList h es).1 ++ [HCell.clist (allocList h es).2]).length
      simp
  | h, Val.vdict es => by
    obtain ⟨ext, hext⟩ := allocDict_spec h es
    refine ⟨⟨ext ++ [HCell.cdict (allocDict h es).2], ?_⟩, ?_, ?_⟩
    · show (allocDict h es).1 ++ [HCell.cdict (allocDict h es).2] = _
      rw [hext, List.append_assoc]
    · show h.length ≤ (allocDict h es).1.length
      rw [hext]
      simp
    · show (allocDict h es).1.length <
        ((allocDict h es).1 ++ [HCell.cdict (allocDict h es).2]).length
      simp

/-- Lemma: `allocList` only appends cells. -/
theorem allocList_spec : (h : Heap) → (vs : List Val) →
    ∃ ext : Heap, (allocList h vs).1 = h ++ ext
  | h, [] => ⟨[], by simp [allocList]⟩
  | h, v :: vs => by
    obtain ⟨⟨e₁, he₁⟩, _⟩ := allocVal_spec h v
    obtain ⟨e₂, he₂⟩ := allocList_spec (allocVal h v).1 vs
    exact ⟨e₁ ++ e₂, by
      show (allocList (allocVal h v).1 vs).1 = _
      rw [he₂, he₁, List.append_assoc]⟩

/-- Lemma: `allocDict` only appends cells. -/
theorem allocDict_spec : (h : Heap) → (vs : List (String × Val)) →
    ∃ ext : Heap, (allocDict h vs).1 = h ++ ext
  | h, [] => ⟨[], by simp [allocDict]⟩
  | h, kv :: vs => by
    obtain ⟨⟨e₁, he₁⟩, _⟩ := allocVal_spec h kv.2
    obtain ⟨e₂, he₂⟩ := allocDict_spec (allocVal h kv.2).1 vs
    exact ⟨e₁ ++ e₂, by
      show (allocDict (allocVal h kv.2).1 vs).1 = _
      rw [he₂, he₁, List.append_assoc]⟩

end

mutual

/-- Reading the copy back, in any heap that preserves the allocation's
cells, yields the allocated value. -/
theorem allocVal_read : (h H : Heap) → (v : Val) → (f : Nat) →
    HeapLe (allocVal h v).1 H → sizeOf v ≤ f →
    readH f H (allocVal h v).2 = some v
  | h, H, Val.vnull, f, hle, hf => by
    have hsz : sizeOf Val.vnull = 1 := by simp
    obtain ⟨f', rfl⟩ : ∃ f', f = f' + 1 := ⟨f - 1, by omega⟩
    have hroot : H[h.length]? = some HCell.cnull :=
      hle h.length HCell.cnull (List.getElem?_concat_length h HCell.cnull)
    show readH (f' + 1) H h.length = some Val.vnull
    rw [readH, hroot]
  | h, H, Val.vbool b, f, hle, hf => by
    have hsz : sizeOf (Val.vbool b) = 2 := by simp
    obtain ⟨f', rfl⟩ : ∃ f', f = f' + 1 := ⟨f - 1, by omega⟩
    have hroot : H[h.length]? = some (HCell.cbool b) :=
      hle h.length (HCell.cbool b) (List.getElem?_concat_length h _)
    show readH (f' + 1) H h.length = some (Val.vbool b)
    rw [readH, hroot]
  | h, H, Val.vint n, f, hle, hf => by
    have hsz : 1 ≤ sizeOf (Val.vint n) := by simp
    obtain ⟨f', rfl⟩ : ∃ f', f = f' + 1 := ⟨f - 1, by omega⟩
    have hroot : H[h.length]? = some (HCell.cint n) :=
      hle h.length (HCell.cint n) (List.getElem?_concat_length h _)
    show readH (f' + 1) H h.length = some (Val.vint n)
    rw [readH, hroot]
  | h, H, Val.vstr s, f, hle, hf => by
    have hsz : 1 ≤ sizeOf (Val.vstr s) := by simp
    obtain ⟨f', rfl⟩ : ∃ f', f = f' + 1 := ⟨f - 1, by omega⟩
    have hroot : H[h.length]? = some (HCell.cstr s) :=
      hle h.length (HCell.cstr s) (List.getElem?_concat_length h _)
    show readH (f' + 1) H h.length = some (Val.vstr s)
    rw [readH, hroot]
  | h, H, Val.vlist es, f, hle, hf => by
    have hsz : sizeOf (Val.vlist es) = 1 + sizeOf es := by simp
    obtain ⟨f', rfl⟩ : ∃ f', f = f' + 1 := ⟨f - 1, by omega⟩
    have hroot : H[(allocList h es).1.length]? =
        some (HCell.clist (allocList h es).2) :=
      hle (allocList h es).1.length _ (List.getElem?_concat_length _ _)
    have hread := allocList_read h H es f'
      (heapLe_trans (heapLe_append (allocList h es).1
        [HCell.clist (allocList h es).2]) hle)
      (fun u hu => by
        have := List.sizeOf_lt_of_mem hu
        omega)
    show readH (f' + 1) H (allocList h es).1.length = some (Val.vlist es)
    rw [readH, hroot]
    show Option.map Val.vlist ((allocList h es).2.mapM (readH f' H)) =
      some (Val.vlist es)
    rw [hread]
    rfl
  | h, H, Val.vdict es, f, hle, hf => by
    have hsz : sizeOf (Val.vdict es) = 1 + sizeOf es := by simp
    obtain ⟨f', rfl⟩ : ∃ f', f = f' + 1 := ⟨f - 1, by omega⟩
    have hroot : H[(allocDict h es).1.length]? =
        some (HCell.cdict (allocDict h es).2) :=
      hle (allocDict h es).1.length _ (List.getElem?_concat_length _ _)
    have hread := allocDict_read h H es f'
      (heapLe_trans (heapLe_append (allocDict h es).1
        [HCell.cdict (allocDict h es).2]) hle)
      (fun u hu => by
        have h1 := List.sizeOf_lt_of_mem hu
        have h2 : sizeOf u = 1 + sizeOf u.1 + sizeOf u.2 := by
          cases u
          simp
        omega)
    show readH (f' + 1) H (allocDict h es).1.length = some (Val.vdict es)
    rw [readH, hroot]
    show Option.map Val.vdict ((allocDict h es).2.mapM (fun kv =>
        (readH f' H kv.2).map (fun v => (kv.1, v)))) = some (Val.vdict es)
    rw [hread]
    rfl

/-- Element-wise read-back for allocated lists. -/
theorem allocList_read : (h H : Heap) → (vs : List Val) → (f : Nat) →
    HeapLe (allocList h vs).1 H → (∀ v ∈ vs, sizeOf v ≤ f) →
    (allocList h vs).2.mapM (readH f H) = some vs
  | h, H, [], f, _, _ => rfl
  | h, H, v :: vs, f, hle, hf => by
    have hleq : HeapLe (allocList (allocVal h v).1 vs).1 H := hle
    have hext : HeapLe (allocVal h v).1 (allocList (allocVal h v).1 vs).1 := by
      obtain ⟨ext, hex⟩ := allocList_spec (allocVal h v).1 vs
      rw [hex]
      exact heapLe_append _ _
    have hv : readH f H (allocVal h v).2 = some v :=
      allocVal_read h H v f (heapLe_trans hext hleq) (hf v (by simp))
    have hvs : (allocList (allocVal h v).1 vs).2.mapM (readH f H) = some vs :=
      allocList_read (allocVal h v).1 H vs f hleq
        (fun u hu => hf u (by simp [hu]))
    show ((allocVal h v).2 :: (allocList (allocVal h v).1 vs).2).mapM
      (readH f H) = some (v :: vs)
    rw [List.mapM_cons, hv, hvs]
    rfl

/-- Entry-wise read-back for allocated dicts. -/
theorem allocDict_read : (h H : Heap) → (vs : List (String × Val)) →
    (f : Nat) →
    HeapLe (allocDict h vs).1 H → (∀ kv ∈ vs, sizeOf kv.2 ≤ f) →
    (allocDict h vs).2.mapM (fun kv =>
      (readH f H kv.2).map (fun v => (kv.1, v))) = some vs
  | h, H, [], f, _, _ => rfl
  | h, H, kv :: vs, f, hle, hf => by
    have hleq : HeapLe (allocDict (allocVal h kv.2).1 vs).1 H := hle
    have hext : HeapLe (allocVal h kv.2).1
        (allocDict (allocVal h kv.2).1 vs).1 := by
      obtain ⟨ext, hex⟩ := allocDict_spec (allocVal h kv.2).1 vs
      rw [hex]
      exact heapLe_append _ _
    have hv : readH f H (allocVal h kv.2).2 = some kv.2 :=
      allocVal_read h H kv.2 f (heapLe_trans hext hleq) (hf kv (by simp))
    have hvs : (allocDict (allocVal h kv.2).1 vs).2.mapM (fun kv =>
        (readH f H kv.2).map (fun v => (kv.1, v))) = some vs :=
      allocDict_read (allocVal h kv.2).1 H vs f hleq
        (fun u hu => hf u (by simp [hu]))
    show ((kv.1, (allocVal h kv.2).2) ::
        (allocDict (allocVal h kv.2).1 vs).2).mapM (fun kv =>
      (readH f H kv.2).map (fun v => (kv.1, v))) = some (kv :: vs)
    rw [List.mapM_cons]
    simp only
    rw [hv, hvs]
    rfl

end

/-! Section: Session operation lemmas -/

theorem getDict_state (s : KvSession) :
    (getDict s).2 = s ∨
    (s.cachedDict = none ∧
      (getDict s).2 = { s with cachedDict := some (getDict s).1,
                               fetchCount := s.fetchCount + 1 }) := by
  cases hc : s.cachedDict with
  | some d => left; simp [getDict, hc]
  | none =>
    right
    refine ⟨rfl, ?_⟩
    simp [getDict, hc, createDict]

theorem viewOf_getDict (s : KvSession) : viewOf (getDict s).2 = viewOf s := by
  rcases getDict_state s with h | ⟨hc, h⟩
  · rw [h]
  · show (getDict (getDict s).2).1 = (getDict s).1
    rw [h]
    simp [getDict]

theorem getOp_state (s : KvSession) (k : String) :
    (getOp s k).2 = s ∨ (getOp s k).2 = (getDict s).2 := by
  cases hid : s.id with
  | none => left; simp [getOp, hid]
  | some i => right; simp [getOp, hid]

theorem setOp_of_eq (s : KvSession) (k : String) (v : Val)
    (h : (getOp s k).1 = some v) : setOp s k v = (getOp s k).2 := by
  unfold setOp
  rcases hg : getOp s k with ⟨ov, s₁⟩
  rw [hg] at h
  simp at h
  subst h
  simp

theorem getDict_snd_fields (s : KvSession) :
    (getDict s).2.id = s.id ∧ (getDict s).2.container = s.container ∧
    (getDict s).2.isDirty = s.isDirty ∧
    (getDict s).2.wasChanged = s.wasChanged ∧
    (getDict s).2.storeCount = s.storeCount ∧
    (getDict s).2.uuidCtr = s.uuidCtr ∧
    (getDict s).2.livedata = s.livedata ∧
    (getDict s).2.originalId = s.originalId ∧
    (getDict s).2.validCheckCount = s.validCheckCount := by
  cases hc : s.cachedDict <;> simp [getDict, createDict, hc]

theorem markDirty_fields (s : KvSession) :
    (markDirty s).cachedDict = s.cachedDict ∧ (markDirty s).id = s.id ∧
    (markDirty s).uuidCtr = s.uuidCtr ∧ (markDirty s).wasChanged = true ∧
    (markDirty s).isDirty = !s.livedata ∧
    (markDirty s).livedata = s.livedata ∧
    (s.livedata = false → (markDirty s).container = s.container ∧
      (markDirty s).storeCount = s.storeCount) := by
  cases hl : s.livedata <;> cases hid : s.id <;>
    simp [markDirty, storeBackend, hl, hid]

theorem getOp_cached (s : KvSession) (d : Dict) (i : String) (k : String)
    (hid : s.id = some i) (hc : s.cachedDict = some d) :
    getOp s k = (lookupA d k, s) := by
  simp [getOp, hid, getDict, hc]

/-- C2: the claim says that after `store()` returns, `isDirty` is false.
The code disagrees: `Session.store` (`_init.py:355`) performs the backend
commit when dirty but — unlike `revert` — never clears `_is_dirty`.
Evaluated at the failing input (fresh non-live cache session, `set a=1`,
then `store()`): the backend write happens (one container write, the data
is persisted under the generated identity), yet `isDirty` remains true. -/
theorem c2_store_leaves_dirty :
    (setOp (mkKvSession [] false none) "a" (Val.vint 1)).isDirty = true ∧
    (storeOp (setOp (mkKvSession [] false none) "a"
      (Val.vint 1))).storeCount = 1 ∧
    lookupA (storeOp (setOp (mkKvSession [] false none) "a"
      (Val.vint 1))).container (uuidStr 0) = some [("a", Val.vint 1)] ∧
    (storeOp (setOp (mkKvSession [] false none) "a"
      (Val.vint 1))).isDirty = true := by
  decide

/-- C4 counterexample: the claim says no read-only operation (including
iteration) on an `id = None` session triggers a backend fetch; but
`DictSession.__iter__` (`_init.py:465`) consults the `_dict` property with
no `id is None` guard, so iterating a fresh identityless session issues one
container lookup. -/
theorem c4_iteration_fetches :
    (mkKvSession [] false none).id = none ∧
    (mkKvSession [] false none).fetchCount = 0 ∧
    (iterOp (mkKvSession [] false none)).2.fetchCount = 1 ∧
    (iterOp (mkKvSession [] false none)).2.fetchCount ≠
      (mkKvSession [] false none).fetchCount := by
  decide

/-- C4 (amended): for every session with `id = None` (whose dict is
unmaterialized or materialized empty, the only reachable shapes),
`contains` returns false and `get` fails with `KeyNotFound`, each with no
state change and no backend fetch; iteration yields no keys — behaving as
an empty bag — but performs one backend fetch when the dict is not yet
materialized. -/
theorem c4_no_id_reads (s : KvSession) (k : String) (h : s.id = none)
    (h2 : s.cachedDict = none ∨ s.cachedDict = some []) :
    containsOp s k = (false, s) ∧ getOp s k = (none, s) ∧
    (iterOp s).1 = [] ∧
    (iterOp s).2.fetchCount =
      (if s.cachedDict = none then s.fetchCount + 1 else s.fetchCount) := by
  refine ⟨by simp [containsOp, h], by simp [getOp, h], ?_, ?_⟩
  · rcases h2 with hc | hc <;>
      simp [iterOp, getDict, createDict, hc, h, keysA]
  · rcases h2 with hc | hc <;> simp [iterOp, getDict, createDict, hc]

/-- C4 witness: the amended statement evaluated on a fresh identityless
session. -/
theorem c4_no_id_reads_witness :
    containsOp (mkKvSession [] false none) "k" =
      (false, mkKvSession [] false none) ∧
    getOp (mkKvSession [] false none) "k" =
      (none, mkKvSession [] false none) ∧
    (iterOp (mkKvSession [] false none)).1 = [] ∧
    (iterOp (mkKvSession [] false none)).2.fetchCount =
      (if (mkKvSession [] false none).cachedDict = none then
        (mkKvSession [] false none).fetchCount + 1
      else (mkKvSession [] false none).fetchCount) :=
  c4_no_id_reads (mkKvSession [] false none) "k" (by decide)
    (Or.inl (by decide))

/-- C8 counterexample: the claim says the backend validity check is
evaluated exactly once at construction for every empty-or-invalid
candidate; but for an empty candidate `Session.__init__` (`_init.py:347`)
short-circuits on `not id` and performs zero validity probes. -/
theorem c8_empty_candidate_skips_check :
    (mkKvSession [("k", [])] false (some "")).validCheckCount = 0 ∧
    (mkKvSession [("k", [])] false (some "")).validCheckCount ≠ 1 := by
  decide

/-- C8 (amended): a load-time candidate identity that is empty or fails the
backend validity check is normalized to `None` at construction, and the
resulting session is identical to one from `create()` (empty data, no
identity, nothing dirty, no error) in every field except the validity-probe
count, which is pinned exactly: one probe for a non-empty invalid
candidate, zero probes for an empty or `None` candidate (short-circuited
by `not id`). -/
theorem c8_invalid_id_degrades (container : List (String × Dict))
    (ld : Bool) (cand : Option String)
    (h : cand = none ∨ cand = some "" ∨
      ∃ c, cand = some c ∧ idIsValid container c = false) :
    mkKvSession container ld cand =
      { mkKvSession container ld none with
        validCheckCount := (mkKvSession container ld cand).validCheckCount } ∧
    (mkKvSession container ld cand).validCheckCount =
      (match cand with
       | none => 0
       | some c => if c = "" then 0 else 1) := by
  rcases h with rfl | rfl | ⟨c, rfl, hc⟩
  · exact ⟨by simp [mkKvSession], by simp [mkKvSession]⟩
  · exact ⟨by simp [mkKvSession], by simp [mkKvSession]⟩
  · by_cases hce : c = ""
    · subst hce
      exact ⟨by simp [mkKvSession], by simp [mkKvSession]⟩
    · exact ⟨by simp [mkKvSession, hce, hc], by simp [mkKvSession, hce]⟩

/-- C8 witness: loading with a non-empty candidate unknown to the backend
degrades to a fresh session after exactly one validity probe. -/
theorem c8_invalid_id_degrades_witness :
    mkKvSession [("good", [])] false (some "bad") =
      { mkKvSession [("good", [])] false none with
        validCheckCount := (mkKvSession [("good", [])] false (some "bad")).validCheckCount } ∧
    (mkKvSession [("good", [])] false (some "bad")).validCheckCount =
      (match (some "bad" : Option String) with
       | none => 0
       | some c => if c = "" then 0 else 1) :=
  c8_invalid_id_degrades [("good", [])] false (some "bad")
    (Or.inr (Or.inr ⟨"bad", rfl, by decide⟩))

/-- C3: equal-value writes are no-ops: when `set(k, v)` finds `v` already
deep-equal to the stored value for `k` (`self.get(key, self) == value`),
the session's visible state is unchanged — no dirty flag, no `wasChanged`,
no identity assignment, no backend write, and the visible data mapping is
untouched (at most the internal lazy cache is materialized by the
comparison read). -/
theorem c3_equal_value_set_noop (s : KvSession) (k : String) (v : Val)
    (h : (getOp s k).1 = some v) :
    (setOp s k v).id = s.id ∧ (setOp s k v).isDirty = s.isDirty ∧
    (setOp s k v).wasChanged = s.wasChanged ∧
    (setOp s k v).container = s.container ∧
    (setOp s k v).storeCount = s.storeCount ∧
    (setOp s k v).uuidCtr = s.uuidCtr ∧
    viewOf (setOp s k v) = viewOf s := by
  rw [setOp_of_eq s k v h]
  rcases getOp_state s k with h2 | h2 <;> rw [h2]
  · exact ⟨rfl, rfl, rfl, rfl, rfl, rfl, rfl⟩
  · obtain ⟨ha, hb, hc, hd, he, hf, -, -, -⟩ := getDict_snd_fields s
    exact ⟨ha, hc, hd, hb, he, hf, viewOf_getDict s⟩

/-- C3 witness: writing the already-stored value `1` for key `a` again. -/
theorem c3_equal_value_set_noop_witness :
    (setOp (setOp (mkKvSession [] false none) "a" (Val.vint 1)) "a"
      (Val.vint 1)).id =
      (setOp (mkKvSession [] false none) "a" (Val.vint 1)).id ∧
    (setOp (setOp (mkKvSession [] false none) "a" (Val.vint 1)) "a"
      (Val.vint 1)).isDirty =
      (setOp (mkKvSession [] false none) "a" (Val.vint 1)).isDirty ∧
    (setOp (setOp (mkKvSession [] false none) "a" (Val.vint 1)) "a"
      (Val.vint 1)).wasChanged =
      (setOp (mkKvSession [] false none) "a" (Val.vint 1)).wasChanged ∧
    (setOp (setOp (mkKvSession [] false none) "a" (Val.vint 1)) "a"
      (Val.vint 1)).container =
      (setOp (mkKvSession [] false none) "a" (Val.vint 1)).container ∧
    (setOp (setOp (mkKvSession [] false none) "a" (Val.vint 1)) "a"
      (Val.vint 1)).storeCount =
      (setOp (mkKvSession [] false none) "a" (Val.vint 1)).storeCount ∧
    (setOp (setOp (mkKvSession [] false none) "a" (Val.vint 1)) "a"
      (Val.vint 1)).uuidCtr =
      (setOp (mkKvSession [] false none) "a" (Val.vint 1)).uuidCtr ∧
    viewOf (setOp (setOp (mkKvSession [] false none) "a" (Val.vint 1)) "a"
      (Val.vint 1)) =
      viewOf (setOp (mkKvSession [] false none) "a" (Val.vint 1)) :=
  c3_equal_value_set_noop (setOp (mkKvSession [] false none) "a"
    (Val.vint 1)) "a" (Val.vint 1) (by decide)

/-- C9: relational-session dispatch is by attribute probing
(`hasattr(self._orm_object, key)` at `orm.py:130` and
`hasattr(self._db_object, key)` at `db.py:106`): for a session with a
non-None identity and a materialized row object, *any* key naming an
attribute of the row object — including attributes that are neither
declared first-class columns nor payload keys, such as `metadata` or
method names — is reported contained, and `get` returns that attribute's
value; for both the `orm.py` and `db.py` variants. -/
theorem c9_attribute_probing_dispatch
    (s : OrmSession) (o : OrmObj) (k : String)
    (t : DbSession) (p : DbObj) (k2 : String)
    (hso : s.cachedObj = some o) (hsid : s.id.isSome)
    (hk : (lookupA o.attrs k).isSome)
    (hto : t.cachedObj = some p) (htid : t.id.isSome)
    (hk2 : (lookupA p.attrs k2).isSome) :
    (ormContainsOp s k).1 = some true ∧
    (ormGetOp s k).1 = some (getattrO o k) ∧
    (dbContainsOp t k2).1 = some true ∧
    (dbGetOp t k2).1 = some (getattrD p k2) := by
  obtain ⟨i, hi⟩ := Option.isSome_iff_exists.mp hsid
  obtain ⟨j, hj⟩ := Option.isSome_iff_exists.mp htid
  refine ⟨?_, ?_, ?_, ?_⟩
  · simp [ormContainsOp, hi, ormObjectOf, hso, hasattrO, hk]
  · simp [ormGetOp, hi, ormObjectOf, hso, hasattrO, hk]
  · simp [dbContainsOp, hj, dbObjectOf, hto, hasattrD, hk2]
  · simp [dbGetOp, hj, dbObjectOf, hto, hasattrD, hk2]

/-- C9 witness: key `metadata`, which is neither a declared column of the
table nor a payload key, is visible through attribute probing on both
backends. -/
theorem c9_attribute_probing_dispatch_witness :
    (ormContainsOp ⟨[], [], ["id", "data"], some "i1", some "i1", false,
      false, some ⟨[("id", Val.vstr "i1"), ("metadata", Val.vstr "md")],
        [("p", Val.vint 7)]⟩⟩ "metadata").1 = some true ∧
    (ormGetOp ⟨[], [], ["id", "data"], some "i1", some "i1", false,
      false, some ⟨[("id", Val.vstr "i1"), ("metadata", Val.vstr "md")],
        [("p", Val.vint 7)]⟩⟩ "metadata").1 =
      some (getattrO ⟨[("id", Val.vstr "i1"), ("metadata", Val.vstr "md")],
        [("p", Val.vint 7)]⟩ "metadata") ∧
    (dbContainsOp ⟨[], [], some "i2", some "i2", false, false,
      some ⟨[("_uuid", Val.vstr "i2"), ("metadata", Val.vstr "md")],
        [("q", Val.vint 8)]⟩⟩ "metadata").1 = some true ∧
    (dbGetOp ⟨[], [], some "i2", some "i2", false, false,
      some ⟨[("_uuid", Val.vstr "i2"), ("metadata", Val.vstr "md")],
        [("q", Val.vint 8)]⟩⟩ "metadata").1 =
      some (getattrD ⟨[("_uuid", Val.vstr "i2"),
        ("metadata", Val.vstr "md")], [("q", Val.vint 8)]⟩ "metadata") :=
  c9_attribute_probing_dispatch
    ⟨[], [], ["id", "data"], some "i1", some "i1", false, false,
      some ⟨[("id", Val.vstr "i1"), ("metadata", Val.vstr "md")],
        [("p", Val.vint 7)]⟩⟩
    ⟨[("id", Val.vstr "i1"), ("metadata", Val.vstr "md")],
      [("p", Val.vint 7)]⟩ "metadata"
    ⟨[], [], some "i2", some "i2", false, false,
      some ⟨[("_uuid", Val.vstr "i2"), ("metadata", Val.vstr "md")],
        [("q", Val.vint 8)]⟩⟩
    ⟨[("_uuid", Val.vstr "i2"), ("metadata", Val.vstr "md")],
      [("q", Val.vint 8)]⟩ "metadata"
    rfl rfl (by decide) rfl rfl (by decide)

/-- C10: on the ORM session, `delete(key)` for a key matching a first-class
column (an attribute) assigns `None` to that column instead of removing the
key: afterwards `contains(key)` is still true, `get(key)` returns `None`,
and `iterate()` still yields the key; a key living only in the payload is
actually removed from `data` by delete. -/
theorem c10_column_delete_nulls (s : OrmSession) (o : OrmObj)
    (k pk : String)
    (hso : s.cachedObj = some o) (hsid : s.id.isSome)
    (hcol : k ∈ s.cols) (hki : k ≠ "id") (hkd : k ≠ "data")
    (hattr : (lookupA o.attrs k).isSome)
    (hpkattr : (lookupA o.attrs pk).isSome = false) (hpkd : pk ≠ "data")
    (hpkin : (lookupA o.data pk).isSome)
    (hnd : (keysA o.data).Nodup) :
    (ormContainsOp (ormDelOp s k) k).1 = some true ∧
    (ormGetOp (ormDelOp s k) k).1 = some Val.vnull ∧
    (∃ l, (ormIterOp (ormDelOp s k)).1 = some l ∧ k ∈ l) ∧
    (ormDelOp s k).cachedObj =
      some ({ o with attrs := insertA o.attrs k Val.vnull }) ∧
    (ormDelOp s pk).cachedObj =
      some ({ o with data := eraseA o.data pk }) ∧
    (∀ o', (ormDelOp s pk).cachedObj = some o' →
      lookupA o'.data pk = none) := by
  obtain ⟨i, hi⟩ := Option.isSome_iff_exists.mp hsid
  have hdel : ormDelOp s k = markDirtyBase
      { s with
        cachedObj := some ({ o with attrs := insertA o.attrs k Val.vnull }) }
      := by
    simp [ormDelOp, ormContainsOp, hi, ormObjectOf, hso, hasattrO, hattr,
      setattrO, hkd]
  have hdelp : ormDelOp s pk = markDirtyBase
      { s with
        cachedObj := some ({ o with data := eraseA o.data pk }) } := by
    simp [ormDelOp, ormContainsOp, hi, ormObjectOf, hso, hasattrO,
      hpkattr, hpkd, hpkin, setattrO]
  refine ⟨?_, ?_, ?_, ?_, ?_, ?_⟩
  · rw [hdel]
    simp [ormContainsOp, markDirtyBase, hi, ormObjectOf, hasattrO,
      lookupA_insertA_self]
  · rw [hdel]
    simp [ormGetOp, markDirtyBase, hi, ormObjectOf, hasattrO,
      lookupA_insertA_self, getattrO, hkd]
  · rw [hdel]
    refine ⟨s.cols.filter (fun c => c ≠ "id" && c ≠ "data") ++
        keysA o.data, ?_, ?_⟩
    · simp [ormIterOp, markDirtyBase, ormObjectOf]
    · exact List.mem_append_left _
        (List.mem_filter.mpr ⟨hcol, by simp [hki, hkd]⟩)
  · rw [hdel]
    simp [markDirtyBase]
  · rw [hdelp]
    simp [markDirtyBase]
  · intro o' h
    rw [hdelp] at h
    simp [markDirtyBase] at h
    rw [← h]
    exact lookupA_eraseA_self o.data pk hnd

/-- C10 witness: deleting the first-class column `user` nulls it in place
(it stays contained, reads as `None`, and is still iterated), while
deleting the payload-only key `cart` removes it from the payload. -/
theorem c10_column_delete_nulls_witness :
    (ormContainsOp (ormDelOp ⟨[], [], ["id", "user", "data"], some "s1",
      some "s1", false, false, some ⟨[("id", Val.vnull),
        ("user", Val.vstr "bob"), ("metadata", Val.vnull)],
        [("cart", Val.vint 2)]⟩⟩ "user") "user").1 = some true ∧
    (ormGetOp (ormDelOp ⟨[], [], ["id", "user", "data"], some "s1",
      some "s1", false, false, some ⟨[("id", Val.vnull),
        ("user", Val.vstr "bob"), ("metadata", Val.vnull)],
        [("cart", Val.vint 2)]⟩⟩ "user") "user").1 = some Val.vnull ∧
    (∃ l, (ormIterOp (ormDelOp ⟨[], [], ["id", "user", "data"], some "s1",
      some "s1", false, false, some ⟨[("id", Val.vnull),
        ("user", Val.vstr "bob"), ("metadata", Val.vnull)],
        [("cart", Val.vint 2)]⟩⟩ "user")).1 = some l ∧ "user" ∈ l) ∧
    (ormDelOp ⟨[], [], ["id", "user", "data"], some "s1",
      some "s1", false, false, some ⟨[("id", Val.vnull),
        ("user", Val.vstr "bob"), ("metadata", Val.vnull)],
        [("cart", Val.vint 2)]⟩⟩ "user").cachedObj =
      some ({ (⟨[("id", Val.vnull), ("user", Val.vstr "bob"),
        ("metadata", Val.vnull)], [("cart", Val.vint 2)]⟩ : OrmObj) with
        attrs := insertA [("id", Val.vnull), ("user", Val.vstr "bob"),
          ("metadata", Val.vnull)] "user" Val.vnull }) ∧
    (ormDelOp ⟨[], [], ["id", "user", "data"], some "s1",
      some "s1", false, false, some ⟨[("id", Val.vnull),
        ("user", Val.vstr "bob"), ("metadata", Val.vnull)],
        [("cart", Val.vint 2)]⟩⟩ "cart").cachedObj =
      some ({ (⟨[("id", Val.vnull), ("user", Val.vstr "bob"),
        ("metadata", Val.vnull)], [("cart", Val.vint 2)]⟩ : OrmObj) with
        data := eraseA [("cart", Val.vint 2)] "cart" }) ∧
    (∀ o', (ormDelOp ⟨[], [], ["id", "user", "data"], some "s1",
      some "s1", false, false, some ⟨[("id", Val.vnull),
        ("user", Val.vstr "bob"), ("metadata", Val.vnull)],
        [("cart", Val.vint 2)]⟩⟩ "cart").cachedObj = some o' →
      lookupA o'.data "cart" = none) :=
  c10_column_delete_nulls
    ⟨[], [], ["id", "user", "data"], some "s1", some "s1", false, false,
      some ⟨[("id", Val.vnull), ("user", Val.vstr "bob"),
        ("metadata", Val.vnull)], [("cart", Val.vint 2)]⟩⟩
    ⟨[("id", Val.vnull), ("user", Val.vstr "bob"),
      ("metadata", Val.vnull)], [("cart", Val.vint 2)]⟩
    "user" "cart" rfl rfl (by decide) (by decide) (by decide) (by decide)
    (by decide) (by decide) (by decide) (by decide)

end Score
